import Mathlib

/-!
Verification development for the cadence repository (autonomous code-change
pipeline).  The Python modules under `src/cadence/dev/` are shallowly embedded
as pure Lean functions:

* Python dicts become association lists (`List (String × PyVal)`); lookups
  follow Python `dict.get` semantics (first binding wins, keys are unique in
  every dict the code constructs).
* `subprocess.run` and other external effects (git, pytest, the file system,
  SHA-1 hashing, `difflib`) are abstracted as parameters / environment
  records of type `ProcResult`-returning functions, mirroring how the
  repository's own unit tests stub `subprocess.run` by command prefix.
* Raising an exception becomes returning `Except.error`; the mutable object
  state (`ShellRunner`, `TaskRecord`, `BacklogManager`) is threaded
  explicitly as a state value.
* Wall-clock timestamps (`datetime.now`) are modelled by a monotone counter
  stored in the record state.
-/

/-- Python value: a string, a nested dict, or None.  Only the shapes the
embedded code inspects are modelled; other Python types do not occur in the
dicts handled by the claims. -/
inductive PyVal where
  | s (v : String)
  | d (kvs : List (String × PyVal))
  | none_
deriving Repr

/-- A Python dict with string keys (tasks, `extra` payloads, `diff` infos). -/
abbrev TaskDict := List (String × PyVal)

/-- Association-list lookup, modelling Python `dict[k]` / `dict.get(k)`.
Keys are unique in every dict the embedded code builds, so first-match
semantics coincide with Python's. -/
def alookup {α : Type} (m : List (String × α)) (k : String) : Option α :=
  match m with
  | [] => none
  | (k', v) :: rest => if k' = k then some v else alookup rest k

/-- Association-list update, modelling Python `dict[k] = v` (replace the
existing binding or append a new one). -/
def aset {α : Type} (m : List (String × α)) (k : String) (v : α) : List (String × α) :=
  match m with
  | [] => [(k, v)]
  | (k', v') :: rest => if k' = k then (k, v) :: rest else (k', v') :: aset rest k v

/-- Python's default whitespace set for `str.strip()` (ASCII part). -/
def isPySpace (c : Char) : Bool :=
  c == ' ' || c == '\t' || c == '\n' || c == '\r' || c == '\x0b' || c == '\x0c'

/-- Python `str.strip()`: drop leading and trailing whitespace. -/
def pyStrip (s : String) : String :=
  String.mk (((s.toList.dropWhile isPySpace).reverse.dropWhile isPySpace).reverse)

/-- Does the first list begin the second one? -/
def strStarts : List Char → List Char → Bool
  | [], _ => true
  | _ :: _, [] => false
  | a :: as, b :: bs => a == b && strStarts as bs

/-- Does the needle occur somewhere in the haystack? -/
def strFind : List Char → List Char → Bool
  | needle, [] => strStarts needle []
  | needle, c :: rest => strStarts needle (c :: rest) || strFind needle rest

/-- Python's `needle in haystack` for strings (substring membership). -/
def pyIn (needle haystack : String) : Bool :=
  strFind needle.toList haystack.toList

/-- Python `str.lower()` (ASCII case fold, the only case the embedded
messages exercise). -/
def asciiLower (c : Char) : Char :=
  if 'A' ≤ c && c ≤ 'Z' then Char.ofNat (c.toNat + 32) else c

/-- Python `str.lower()`. -/
def pyLower (s : String) : String := String.mk (s.toList.map asciiLower)

/-- Python `str.endswith(suffix)`. -/
def pyEndsWith (s suf : String) : Bool :=
  strStarts suf.toList.reverse s.toList.reverse

/-- Python truthiness test for an optional string (`if x:`):
true when present and nonempty. -/
def pyTruthy (x : Option String) : Bool :=
  match x with
  | some v => v ≠ ""
  | none => false

/-- Relation: `old` is kept intact at the front of `new`: every element of `old` is
still present, unchanged, at its original position.  This is the pure
rendering of "append-only": histories only ever grow at the end. -/
def keepsAll {α : Type} (old new : List α) : Prop :=
  old.length ≤ new.length ∧ ∀ j, j < old.length → new[j]? = old[j]?

theorem keepsAll_refl {α : Type} (l : List α) : keepsAll l l :=
  ⟨le_refl _, fun _ _ => rfl⟩

theorem keepsAll_append {α : Type} (l tail : List α) : keepsAll l (l ++ tail) := by
  refine ⟨by simp, fun j hj => ?_⟩
  exact List.getElem?_append_left hj

theorem keepsAll_trans {α : Type} {a b c : List α}
    (h₁ : keepsAll a b) (h₂ : keepsAll b c) : keepsAll a c := by
  obtain ⟨hl₁, hp₁⟩ := h₁
  obtain ⟨hl₂, hp₂⟩ := h₂
  refine ⟨le_trans hl₁ hl₂, fun j hj => ?_⟩
  rw [hp₂ j (lt_of_lt_of_le hj hl₁), hp₁ j hj]

/-! ## Audit Ledger — `src/cadence/dev/record.py` (`TaskRecord`) -/

/-- One history snapshot: `{"state", "timestamp", "task", "extra"}`
(`TaskRecord.save`).  `task` and `extra` are stored as deep copies in the
source; values are immutable here, so copying is the identity. -/
structure Snap where
  state : String
  timestamp : Nat
  task : TaskDict
  extra : List (String × PyVal)

/-- One iterations entry: `{"timestamp": now, **iteration}`
(`TaskRecord.append_iteration`); the dict-merge is abstracted as a pair. -/
structure IterSnap where
  timestamp : Nat
  data : List (String × PyVal)

/-- One per-task record: `{"task_id", "created_at", "history", "iterations"}`
(`TaskRecord._find_or_create_record`). -/
structure TRec where
  taskId : String
  createdAt : Nat
  history : List Snap
  iterations : List IterSnap

/-- The in-memory `TaskRecord` state: `self._records` plus a monotone clock
standing in for `datetime.now()`.  `self._idmap` is derivable (last record
wins, as in `_sync_idmap`'s dict comprehension) and is not stored.  Disk
persistence (`_persist`) atomically rewrites the same data and is the
identity here. -/
structure RecordState where
  records : List TRec
  clock : Nat

/-- Embeds `TaskRecord._get_task_id`: `task.get("id")`, raising when missing or
falsy (non-string ids do not occur in the orchestrated flow). -/
def getTaskId (task : TaskDict) : Except String String :=
  match alookup task "id" with
  | some (PyVal.s tid) =>
      if tid = "" then Except.error "Task dict missing 'id'. Cannot save record." else Except.ok tid
  | _ => Except.error "Task dict missing 'id'. Cannot save record."

/-- Index of the record `self._idmap` would return for `tid`: the **last**
record whose `task_id` matches (dict comprehension in `_sync_idmap`
overwrites earlier entries). -/
def lastIdx (rs : List TRec) (tid : String) : Option Nat :=
  match rs with
  | [] => none
  | r :: rest =>
      match lastIdx rest tid with
      | some i => some (i + 1)
      | none => if r.taskId = tid then some 0 else none

/-- Replace the element at position `n` by `f` applied to it. -/
def modifyAt {α : Type} (l : List α) (n : Nat) (f : α → α) : List α :=
  match l, n with
  | [], _ => []
  | x :: rest, 0 => f x :: rest
  | x :: rest, Nat.succ m => x :: modifyAt rest m f

/-- Embeds `TaskRecord.save`: find-or-create the record for the task's id and append
a snapshot to its history (then `_sync_idmap` and `_persist`, both of which
leave the abstract state unchanged). -/
def RecordState.save (st : RecordState) (task : TaskDict) (state : String)
    (extra : List (String × PyVal)) : Except String RecordState :=
  match getTaskId task with
  | Except.error e => Except.error e
  | Except.ok tid =>
      match lastIdx st.records tid with
      | some i =>
          Except.ok ⟨modifyAt st.records i
            (fun r => { r with history := r.history ++ [⟨state, st.clock, task, extra⟩] }),
            st.clock + 1⟩
      | none =>
          Except.ok ⟨st.records ++ [⟨tid, st.clock, [⟨state, st.clock, task, extra⟩], []⟩],
            st.clock + 1⟩

/-- Embeds `TaskRecord.append_iteration`: append a fine-grained step to an existing
record, raising `TaskRecordError` when the task has no record yet. -/
def RecordState.appendIteration (st : RecordState) (taskId : String)
    (iteration : List (String × PyVal)) : Except String RecordState :=
  match lastIdx st.records taskId with
  | none => Except.error ("No record for task id=" ++ taskId)
  | some i =>
      Except.ok ⟨modifyAt st.records i
        (fun r => { r with iterations := r.iterations ++ [⟨st.clock, iteration⟩] }),
        st.clock + 1⟩

/-- Embeds `TaskRecord.load`: a deep copy of all records (identity on pure values). -/
def RecordState.load (st : RecordState) : List TRec :=
  st.records

/-- One public Audit Ledger operation (the API surface named by the claim). -/
inductive LedgerOp where
  | save (task : TaskDict) (state : String) (extra : List (String × PyVal))
  | appendIter (tid : String) (iteration : List (String × PyVal))
  | load

/-- Run one ledger operation; a raised `TaskRecordError` leaves the state
unchanged (both mutators validate before touching `_records`). -/
def RecordState.applyOp (st : RecordState) (op : LedgerOp) : RecordState :=
  match op with
  | LedgerOp.save t s e =>
      match st.save t s e with
      | Except.ok st' => st'
      | Except.error _ => st
  | LedgerOp.appendIter tid it =>
      match st.appendIteration tid it with
      | Except.ok st' => st'
      | Except.error _ => st
  | LedgerOp.load => st

/-- Run a sequence of ledger operations left to right. -/
def RecordState.applyOps (st : RecordState) (ops : List LedgerOp) : RecordState :=
  ops.foldl RecordState.applyOp st

theorem modifyAt_getElem? {α : Type} (l : List α) (n : Nat) (f : α → α) (i : Nat) :
    (modifyAt l n f)[i]? = if n = i then (l[i]?).map f else l[i]? := by
  induction l generalizing n i with
  | nil => simp [modifyAt]
  | cons x rest ih =>
      cases n with
      | zero =>
          cases i with
          | zero => simp [modifyAt]
          | succ j => simp [modifyAt]
      | succ m =>
          cases i with
          | zero => simp [modifyAt]
          | succ j => simpa [modifyAt, Nat.succ_inj] using ih m j

theorem modifyAt_keeps (rs : List TRec) (n i : Nat) (r : TRec) (f : TRec → TRec)
    (h : rs[i]? = some r)
    (hid : ∀ x, (f x).taskId = x.taskId) (hca : ∀ x, (f x).createdAt = x.createdAt)
    (hh : ∀ x, keepsAll x.history (f x).history)
    (hits : ∀ x, keepsAll x.iterations (f x).iterations) :
    ∃ r', (modifyAt rs n f)[i]? = some r' ∧ r'.taskId = r.taskId ∧
      r'.createdAt = r.createdAt ∧ keepsAll r.history r'.history ∧
      keepsAll r.iterations r'.iterations := by
  rw [modifyAt_getElem?]
  by_cases hn : n = i
  · exact ⟨f r, by simp [hn, h], hid r, hca r, hh r, hits r⟩
  · exact ⟨r, by simp [hn, h], rfl, rfl, keepsAll_refl _, keepsAll_refl _⟩

theorem save_ok_records (st : RecordState) (task : TaskDict) (state : String)
    (extra : List (String × PyVal)) (st' : RecordState)
    (h : st.save task state extra = Except.ok st') :
    (∃ tail, st'.records = st.records ++ tail) ∨
    (∃ n, st'.records = modifyAt st.records n
      (fun r => { r with history := r.history ++ [⟨state, st.clock, task, extra⟩] })) := by
  unfold RecordState.save at h
  split at h
  · exact absurd h (by simp)
  · split at h
    · simp only [Except.ok.injEq] at h
      exact Or.inr ⟨_, by rw [← h]⟩
    · simp only [Except.ok.injEq] at h
      exact Or.inl ⟨_, by rw [← h]⟩

theorem appendIteration_ok_records (st : RecordState) (tid : String)
    (it : List (String × PyVal)) (st' : RecordState)
    (h : st.appendIteration tid it = Except.ok st') :
    ∃ n, st'.records = modifyAt st.records n
      (fun r => { r with iterations := r.iterations ++ [⟨st.clock, it⟩] }) := by
  unfold RecordState.appendIteration at h
  split at h
  · exact absurd h (by simp)
  · simp only [Except.ok.injEq] at h
    exact ⟨_, by rw [← h]⟩

/-- The records list after one ledger operation is the old list unchanged,
the old list with new records appended, or the old list with exactly one
record extended in place (history / iterations grown at the end). -/
theorem applyOp_records_shape (st : RecordState) (op : LedgerOp) :
    (st.applyOp op).records = st.records ∨
    (∃ tail, (st.applyOp op).records = st.records ++ tail) ∨
    (∃ n f, (∀ x : TRec, (f x).taskId = x.taskId ∧ (f x).createdAt = x.createdAt ∧
        keepsAll x.history (f x).history ∧ keepsAll x.iterations (f x).iterations) ∧
      (st.applyOp op).records = modifyAt st.records n f) := by
  cases op with
  | load => exact Or.inl rfl
  | save t s e =>
      simp only [RecordState.applyOp]
      cases hsv : st.save t s e with
      | error msg => exact Or.inl rfl
      | ok st' =>
          rcases save_ok_records st t s e st' hsv with ⟨tail, htail⟩ | ⟨n, hmod⟩
          · exact Or.inr (Or.inl ⟨tail, htail⟩)
          · exact Or.inr (Or.inr ⟨n,
              (fun r => { r with history := r.history ++ [⟨s, st.clock, t, e⟩] }),
              fun x => ⟨rfl, rfl, keepsAll_append _ _, keepsAll_refl _⟩, hmod⟩)
  | appendIter tid it =>
      simp only [RecordState.applyOp]
      cases hap : st.appendIteration tid it with
      | error msg => exact Or.inl rfl
      | ok st' =>
          obtain ⟨n, hmod⟩ := appendIteration_ok_records st tid it st' hap
          exact Or.inr (Or.inr ⟨n,
            (fun r => { r with iterations := r.iterations ++ [⟨st.clock, it⟩] }),
            fun x => ⟨rfl, rfl, keepsAll_refl _, keepsAll_append _ _⟩, hmod⟩)

/-- A single ledger operation keeps every existing record in place: same
position, same `task_id` and `created_at`, history and iterations only
extended at the end. -/
theorem applyOp_keeps (st : RecordState) (op : LedgerOp) (i : Nat) (r : TRec)
    (h : st.records[i]? = some r) :
    ∃ r', (st.applyOp op).records[i]? = some r' ∧ r'.taskId = r.taskId ∧
      r'.createdAt = r.createdAt ∧ keepsAll r.history r'.history ∧
      keepsAll r.iterations r'.iterations := by
  rcases applyOp_records_shape st op with heq | ⟨tail, heq⟩ | ⟨n, f, hf, heq⟩
  · exact ⟨r, by rw [heq]; exact h, rfl, rfl, keepsAll_refl _, keepsAll_refl _⟩
  · obtain ⟨hi, -⟩ := List.getElem?_eq_some.mp h
    exact ⟨r, by rw [heq, List.getElem?_append_left hi]; exact h, rfl, rfl,
      keepsAll_refl _, keepsAll_refl _⟩
  · rw [heq]
    exact modifyAt_keeps st.records n i r f h (fun x => (hf x).1) (fun x => (hf x).2.1)
      (fun x => (hf x).2.2.1) (fun x => (hf x).2.2.2)

theorem applyOps_keeps (ops : List LedgerOp) (st : RecordState) (i : Nat) (r : TRec)
    (h : st.records[i]? = some r) :
    ∃ r', (st.applyOps ops).records[i]? = some r' ∧ r'.taskId = r.taskId ∧
      r'.createdAt = r.createdAt ∧ keepsAll r.history r'.history ∧
      keepsAll r.iterations r'.iterations := by
  induction ops generalizing st r with
  | nil => exact ⟨r, h, rfl, rfl, keepsAll_refl _, keepsAll_refl _⟩
  | cons op rest ih =>
      obtain ⟨r₁, h₁, hid₁, hc₁, hh₁, hi₁⟩ := applyOp_keeps st op i r h
      obtain ⟨r₂, h₂, hid₂, hc₂, hh₂, hi₂⟩ := ih (st.applyOp op) r₁ h₁
      exact ⟨r₂, h₂, hid₂.trans hid₁, hc₂.trans hc₁, keepsAll_trans hh₁ hh₂,
        keepsAll_trans hi₁ hi₂⟩

/-- C9: For every sequence of Audit Ledger operations (save, append_iteration,
load), every snapshot once appended to a task's history is never mutated or
removed: after any later operation, each previously written snapshot is still
present, unchanged, at its original position, and `load` returns (a deep copy
of) the records reflecting this. -/
theorem audit_ledger_append_only (st : RecordState) (ops : List LedgerOp) (i : Nat)
    (r : TRec) (h : st.records[i]? = some r) :
    ∃ r', (RecordState.load (st.applyOps ops))[i]? = some r' ∧ r'.taskId = r.taskId ∧
      keepsAll r.history r'.history ∧ keepsAll r.iterations r'.iterations ∧
      RecordState.load (st.applyOps ops) = (st.applyOps ops).records := by
  obtain ⟨r', h', hid, _, hh, hi⟩ := applyOps_keeps ops st i r h
  exact ⟨r', h', hid, hh, hi, rfl⟩

def c9Rec : TRec :=
  ⟨"t1", 0, [⟨"patch_built", 0, [("id", PyVal.s "t1")], []⟩], []⟩

def c9St : RecordState := ⟨[c9Rec], 1⟩

def c9Ops : List LedgerOp :=
  [LedgerOp.save [("id", PyVal.s "t1")] "committed" [],
   LedgerOp.appendIter "t1" [("phase", PyVal.s "meta_analysis")],
   LedgerOp.load]

/-- Concrete instance of the C9 theorem: one pre-existing record survives a
save, an append_iteration and a load. -/
theorem audit_ledger_append_only_witness :
    ∃ r', (RecordState.load (c9St.applyOps c9Ops))[0]? = some r' ∧ r'.taskId = c9Rec.taskId ∧
      keepsAll c9Rec.history r'.history ∧ keepsAll c9Rec.iterations r'.iterations ∧
      RecordState.load (c9St.applyOps c9Ops) = (c9St.applyOps c9Ops).records :=
  audit_ledger_append_only c9St c9Ops 0 c9Rec rfl

/-! ## Task Store — `src/cadence/dev/backlog.py` (`BacklogManager`) -/

/-- Python `==` between a dict value and a string (false for non-strings). -/
def pyEqStr (v : PyVal) (s : String) : Bool :=
  match v with
  | PyVal.s v' => v' == s
  | _ => false

/-- Python `str()` of a dict value; only the string case occurs in the flows
the claims exercise (reprs of other values are abstracted). -/
def pyStr (v : PyVal) : String :=
  match v with
  | PyVal.s v' => v'
  | PyVal.none_ => "None"
  | PyVal.d _ => "dict-repr"

/-- Embeds `BacklogManager.list_items`: `"all"` returns (a shallow copy of) the
whole collection; any other status filters by Python equality of
`item.get("status", "open")` with the requested status. -/
def listItems (items : List TaskDict) (status : String) : List TaskDict :=
  if status = "all" then items
  else items.filter (fun item => pyEqStr ((alookup item "status").getD (PyVal.s "open")) status)

/-- Constant `REQUIRED_FIELDS` from `backlog.py`. -/
def requiredFields : List String := ["id", "title", "type", "status", "created_at"]

/-- The field loop of `BacklogManager._normalize_task`: fill each *missing*
required field with its default (`id` → fresh uuid, `created_at` → now,
`status` → "open", `type` → "micro"); a missing `title` raises
`TaskStructureError`.  An already-present `status` value is passed through
without being validated against any enumeration. -/
def fillFields (freshId nowStr : String) : List String → TaskDict → Except String TaskDict
  | [], t => Except.ok t
  | f :: rest, t =>
      match alookup t f with
      | some _ => fillFields freshId nowStr rest t
      | none =>
          if f = "id" then
            fillFields freshId nowStr rest (t ++ [("id", PyVal.s freshId)])
          else if f = "created_at" then
            fillFields freshId nowStr rest (t ++ [("created_at", PyVal.s nowStr)])
          else if f = "status" then
            fillFields freshId nowStr rest (t ++ [("status", PyVal.s "open")])
          else if f = "type" then
            fillFields freshId nowStr rest (t ++ [("type", PyVal.s "micro")])
          else Except.error ("Missing required field: " ++ f)

/-- Embeds `BacklogManager._normalize_task`: copy, fill required fields, then coerce
a non-string id with `str()`. -/
def normalizeTask (freshId nowStr : String) (task : TaskDict) : Except String TaskDict :=
  match fillFields freshId nowStr requiredFields task with
  | Except.error e => Except.error e
  | Except.ok t =>
      match alookup t "id" with
      | some (PyVal.s _) => Except.ok t
      | some v => Except.ok (aset t "id" (PyVal.s (pyStr v)))
      | none => Except.ok t

/-- Python `==` on two optional dict values; after normalization all ids are
strings, which is the only case the duplicate check can hit. -/
def pyEqIds (a b : Option PyVal) : Bool :=
  match a, b with
  | some (PyVal.s x), some (PyVal.s y) => x == y
  | _, _ => false

/-- Embeds `BacklogManager.add_item`: normalize, reject duplicate id, then append
and persist (`save()` atomically rewrites the same collection, the identity
here). -/
def addItem (freshId nowStr : String) (items : List TaskDict) (task : TaskDict) :
    Except String (List TaskDict) :=
  match normalizeTask freshId nowStr task with
  | Except.error e => Except.error e
  | Except.ok t =>
      if items.any (fun x => pyEqIds (alookup x "id") (alookup t "id")) then
        Except.error ("Duplicate task id: " ++ pyStr ((alookup t "id").getD PyVal.none_))
      else Except.ok (items ++ [t])

/-- C7: for every store contents, no task whose status is "blocked" is in the
result of `list_items("open")`, and every stored task (blocked ones included)
is in the result of `list_items("all")`. -/
theorem blocked_hidden_from_open (items : List TaskDict) (t : TaskDict) :
    (alookup t "status" = some (PyVal.s "blocked") → t ∉ listItems items "open") ∧
    (t ∈ items → t ∈ listItems items "all") := by
  constructor
  · intro hs hmem
    have hne : ("open" : String) ≠ "all" := by decide
    rw [listItems, if_neg hne] at hmem
    have hpred := (List.mem_filter.mp hmem).2
    rw [hs] at hpred
    exact absurd hpred (by decide)
  · intro hmem
    rw [listItems, if_pos rfl]
    exact hmem

def c7Open : TaskDict := [("id", PyVal.s "T1"), ("status", PyVal.s "open")]

def c7Blocked : TaskDict := [("id", PyVal.s "T2"), ("status", PyVal.s "blocked")]

/-- Concrete instance of the C7 theorem: a blocked task is filtered out of
the "open" view but present in the "all" view. -/
theorem blocked_hidden_from_open_witness :
    c7Blocked ∉ listItems [c7Open, c7Blocked] "open" ∧
    c7Blocked ∈ listItems [c7Open, c7Blocked] "all" :=
  ⟨(blocked_hidden_from_open [c7Open, c7Blocked] c7Blocked).1 rfl,
   (blocked_hidden_from_open [c7Open, c7Blocked] c7Blocked).2
     (List.Mem.tail _ (List.Mem.head _))⟩

def badStatusTask : TaskDict :=
  [("title", PyVal.s "Bad status"), ("type", PyVal.s "micro"),
   ("status", PyVal.s "nonsense"), ("created_at", PyVal.s "2024-07-01T12:03"),
   ("id", PyVal.s "T4")]

/-- C6 (code evaluated at the failing input): `add_item` accepts and persists
a task whose status is outside the enumerated set — `_normalize_task` never
validates a present status value — contradicting the repository's own test
`tests/backlog_blocked_filtering.py::test_invalid_status_rejected`, which
expects `TaskStructureError` for status "nonsense". -/
theorem add_invalid_status_accepted :
    addItem "uuid-fresh" "2026-01-01T00:00" [] badStatusTask = Except.ok [badStatusTask] ∧
    alookup badStatusTask "status" = some (PyVal.s "nonsense") :=
  ⟨rfl, rfl⟩

/-! ## Phase-Guarded Execution Engine — `src/cadence/dev/shell.py` (`ShellRunner`) -/

/-- Result of a `subprocess.run` call: returncode, stdout, stderr. -/
structure ProcResult where
  returncode : Int
  stdout : String
  stderr : String

/-- The external world as seen by `ShellRunner`: `subprocess.run` keyed by
the full command line (the repository's own unit tests stub it the same
way), `os.path.exists`, and the fresh name handed out by
`tempfile.NamedTemporaryFile`. -/
structure ShellEnv where
  run : List String → ProcResult
  pathExists : String → Bool
  tmpfile : String

/-- Embeds `ShellRunner` state: `repo_dir`, the optional `TaskRecord`,
`_current_task`, `_phase_flags`, plus the trace of command lines handed to
`subprocess.run` (lets "no git operation is performed" be stated). -/
structure ShellState where
  repoDir : String
  record : Option RecordState
  currentTask : Option TaskDict
  phaseFlags : List (String × List String)
  trace : List (List String)

/-- Exceptions a `ShellRunner` operation can raise. -/
inductive ShellErr where
  | shellCommand (msg : String)
  | calledProcess (cmd : List String) (rc : Int)
  | keyError (k : String)
deriving Repr

/-- Renders `str(exception)` as embedded in failure snapshots. -/
def errStr : ShellErr → String
  | ShellErr.shellCommand m => m
  | ShellErr.calledProcess c rc =>
      "Command '" ++ String.intercalate " " c ++ "' returned non-zero exit status "
        ++ toString rc ++ "."
  | ShellErr.keyError k => "'" ++ k ++ "'"

/-- Python `a or b` for strings (left operand when truthy). -/
def pyOrStr (a b : String) : String := if a = "" then b else a

/-- The phase-flag set of one task (`self._phase_flags.get(task_id, set())`),
modelled as a duplicate-free list. -/
def ShellState.flagsOf (s : ShellState) (tid : String) : List String :=
  (alookup s.phaseFlags tid).getD []

/-- Embeds `ShellRunner._has_phase`. -/
def ShellState.hasPhase (s : ShellState) (tid phase : String) : Bool :=
  (s.flagsOf tid).contains phase

/-- Embeds `ShellRunner._mark_phase` (`setdefault(task_id, set()).add(phase)`). -/
def ShellState.markPhase (s : ShellState) (tid phase : String) : ShellState :=
  let cur := s.flagsOf tid
  let upd := if cur.contains phase then cur else cur ++ [phase]
  { s with phaseFlags := aset s.phaseFlags tid upd }

/-- Embeds `ShellRunner._init_phase_tracking` (`setdefault(task_id, set())`). -/
def ShellState.initPhase (s : ShellState) (tid : String) : ShellState :=
  match alookup s.phaseFlags tid with
  | some _ => s
  | none => { s with phaseFlags := aset s.phaseFlags tid [] }

/-- Embeds `ShellRunner.attach_task` (raises `KeyError` for a task with no id). -/
def ShellState.attachTask (s : ShellState) (task : Option TaskDict) :
    Except ShellErr ShellState :=
  match task with
  | none => Except.ok { s with currentTask := none }
  | some t =>
      match alookup t "id" with
      | some (PyVal.s tid) =>
          Except.ok (ShellState.initPhase { s with currentTask := some t } tid)
      | _ => Except.error (ShellErr.keyError "id")

/-- The `extra` dict `_record_failure` builds: always the error text, the
stripped output when nonempty, the space-joined command when given. -/
def failExtra (error output : String) (cmd : Option (List String)) : List (String × PyVal) :=
  [("error", PyVal.s error)]
    ++ (if output = "" then [] else [("output", PyVal.s (pyStrip output))])
    ++ (match cmd with
        | some c => [("cmd", PyVal.s (String.intercalate " " c))]
        | none => [])

/-- Embeds `ShellRunner._record_failure`: persist a failure snapshot, best-effort —
a no-op without both a record and a current task, and any `TaskRecord` error
is swallowed. -/
def ShellState.recordFailure (s : ShellState) (state error output : String)
    (cmd : Option (List String)) : ShellState :=
  match s.record, s.currentTask with
  | some rec, some task =>
      match rec.save task state (failExtra error output cmd) with
      | Except.ok rec' => { s with record := some rec' }
      | Except.error _ => s
  | _, _ => s

/-- Append one executed command line to the trace (the state every
`subprocess.run` call leaves behind). -/
def traceStep (s : ShellState) (cmd : List String) : ShellState :=
  { s with trace := s.trace ++ [cmd] }

/-- Continuation of `ShellRunner.run` once `subprocess.run` returned
(`check=True` default): return stdout+stderr, recording `failed_run` before
raising on a non-zero exit. -/
def shellRunAfter (s1 : ShellState) (cmd : List String) (result : ProcResult) :
    Except ShellErr String × ShellState :=
  if result.returncode != 0 then
    (Except.error (ShellErr.shellCommand (pyStrip (result.stdout ++ result.stderr))),
     s1.recordFailure "failed_run" (pyStrip (result.stdout ++ result.stderr))
       (result.stdout ++ result.stderr) (some cmd))
  else (Except.ok (result.stdout ++ result.stderr), s1)

/-- Embeds `ShellRunner.run`. -/
def shellRun (env : ShellEnv) (s : ShellState) (cmd : List String) :
    Except ShellErr String × ShellState :=
  shellRunAfter (traceStep s cmd) cmd (env.run cmd)

/-- Last leg of `git_checkout_branch`: inspect the checkout result, raising
(WITHOUT recording) on failure, marking `branch_isolated` on success. -/
def checkoutFinish (s3 : ShellState) (res2 : ProcResult) :
    Except ShellErr Unit × ShellState :=
  if res2.returncode != 0 then
    (Except.error (ShellErr.shellCommand (pyOrStr res2.stderr res2.stdout)), s3)
  else
    match s3.currentTask with
    | some task =>
        match alookup task "id" with
        | some (PyVal.s tid) => (Except.ok (), s3.markPhase tid "branch_isolated")
        | _ => (Except.error (ShellErr.keyError "id"), s3)
    | none => (Except.ok (), s3)

/-- Run the chosen checkout command. -/
def checkoutRun (env : ShellEnv) (s : ShellState) (cmd : List String) :
    Except ShellErr Unit × ShellState :=
  checkoutFinish (traceStep s cmd) (env.run cmd)

/-- Middle leg of `git_checkout_branch`: after `git branch --list` returned.
A non-zero exit raises — with NO `_record_failure` call; an existing branch
is checked out directly; otherwise a new branch is created from
`base_branch` only if `git rev-parse --verify` says it exists. -/
def checkoutAfterList (env : ShellEnv) (s1 : ShellState) (branch baseBranch : String)
    (res : ProcResult) : Except ShellErr Unit × ShellState :=
  if res.returncode != 0 then
    (Except.error (ShellErr.shellCommand (pyStrip res.stderr)), s1)
  else if pyStrip res.stdout ≠ "" then
    checkoutRun env s1 ["git", "checkout", branch]
  else
    checkoutRun env (traceStep s1 ["git", "rev-parse", "--verify", baseBranch])
      (["git", "checkout", "-b", branch]
        ++ (if (env.run ["git", "rev-parse", "--verify", baseBranch]).returncode == 0
            then [baseBranch] else []))

/-- Embeds `ShellRunner.git_checkout_branch`. -/
def gitCheckoutBranch (env : ShellEnv) (s : ShellState) (branch baseBranch : String) :
    Except ShellErr Unit × ShellState :=
  checkoutAfterList env (traceStep s ["git", "branch", "--list", branch]) branch baseBranch
    (env.run ["git", "branch", "--list", branch])

/-- Computes `"git_apply_reverse" if reverse else "git_apply"`. -/
def applyStage (reverse : Bool) : String :=
  if reverse then "git_apply_reverse" else "git_apply"

/-- Command `["git", "apply", "--check"] (+ ["-R"]) + [tempfile]`. -/
def applyCheckCmd (env : ShellEnv) (reverse : Bool) : List String :=
  ["git", "apply", "--check"] ++ (if reverse then ["-R"] else []) ++ [env.tmpfile]

/-- Command `["git", "apply"] (+ ["-R"]) + [tempfile]`. -/
def applyCmd (env : ShellEnv) (reverse : Bool) : List String :=
  ["git", "apply"] ++ (if reverse then ["-R"] else []) ++ [env.tmpfile]

/-- Final leg of `git_apply`: the real (mutating) apply; on failure the
except-block records `failed_git_apply[_reverse]` with the combined output
before re-raising. -/
def gitApplyReal (env : ShellEnv) (s2 : ShellState) (reverse : Bool)
    (res2 : ProcResult) :
    Except ShellErr Bool × ShellState :=
  if res2.returncode != 0 then
    (Except.error (ShellErr.shellCommand
       ("git apply failed: " ++ pyOrStr (pyStrip res2.stderr) (pyStrip res2.stdout))),
     s2.recordFailure ("failed_" ++ applyStage reverse)
       ("git apply failed: " ++ pyOrStr (pyStrip res2.stderr) (pyStrip res2.stdout))
       (res2.stdout ++ "\n" ++ res2.stderr) (some (applyCmd env reverse)))
  else (Except.ok true, s2)

/-- Middle leg of `git_apply`: after `git apply --check`.  A failing dry run
records `failed_git_apply[_reverse]` and raises, leaving the tree untouched;
only a clean dry run reaches the real apply. -/
def gitApplyChecked (env : ShellEnv) (s1 : ShellState) (reverse : Bool) (res : ProcResult) :
    Except ShellErr Bool × ShellState :=
  if res.returncode != 0 then
    (Except.error (ShellErr.shellCommand
       ("Patch pre-check failed: " ++ pyOrStr (pyStrip res.stderr) (pyStrip res.stdout))),
     s1.recordFailure ("failed_" ++ applyStage reverse)
       ("Patch pre-check failed: " ++ pyOrStr (pyStrip res.stderr) (pyStrip res.stdout))
       (pyOrStr res.stderr res.stdout) (some (applyCheckCmd env reverse)))
  else
    gitApplyReal env (traceStep s1 (applyCmd env reverse)) reverse
      (env.run (applyCmd env reverse))

/-- Body of `ShellRunner.git_apply` (the undecorated method): reject an
empty patch, write it to a temp file, dry-run, then apply. -/
def gitApplyBody (env : ShellEnv) (s : ShellState) (patch : String) (reverse : Bool) :
    Except ShellErr Bool × ShellState :=
  if patch = "" then
    (Except.error (ShellErr.shellCommand "No patch supplied to apply."),
     s.recordFailure ("failed_" ++ applyStage reverse) "No patch supplied to apply." "" none)
  else
    gitApplyChecked env (traceStep s (applyCheckCmd env reverse)) reverse
      (env.run (applyCheckCmd env reverse))

/-- The `@enforce_phase(mark="patch_applied")` wrapper around `git_apply`:
with no required phases it only auto-marks — after *any* successful return
of the body, reverse or not, it marks `patch_applied` for the current task
(read from the state at call time, which the body never changes). -/
def applyMark (s0 : ShellState) (v : Bool) (s' : ShellState) :
    Except ShellErr Bool × ShellState :=
  match s0.currentTask with
  | none => (Except.ok v, s')
  | some task =>
      match alookup task "id" with
      | some (PyVal.s tid) => (Except.ok v, s'.markPhase tid "patch_applied")
      | _ => (Except.error (ShellErr.keyError "id"), s')

/-- Embeds `ShellRunner.git_apply` as callers see it (decorated). -/
def gitApply (env : ShellEnv) (s : ShellState) (patch : String) (reverse : Bool) :
    Except ShellErr Bool × ShellState :=
  match gitApplyBody env s patch reverse with
  | (Except.ok v, s') => applyMark s v s'
  | other => other

/-- The result dict of `run_pytest`: `{'success': bool, 'output': str}`. -/
structure PyResult where
  success : Bool
  output : String
deriving Repr

/-- Computes `path = test_path or os.path.join(self.repo_dir, "tests")`. -/
def pytestPath (s : ShellState) (testPath : Option String) : String :=
  match testPath with
  | some p => if p = "" then s.repoDir ++ "/tests" else p
  | none => s.repoDir ++ "/tests"

/-- Captured pytest output: `(stdout or "") + "\n" + (stderr or "")`. -/
def pytestOutput (r : ProcResult) : String :=
  r.stdout ++ "\n" ++ r.stderr

/-- Continuation of `run_pytest` after the pytest subprocess returned: mark
`tests_passed` on a zero exit; on a non-zero exit persist a `failed_pytest`
snapshot but do NOT raise — return the structured failure result. -/
def pytestAfter (s1 : ShellState) (path : String) (result : ProcResult) :
    Except ShellErr PyResult × ShellState :=
  if result.returncode == 0 then
    match s1.currentTask with
    | some task =>
        match alookup task "id" with
        | some (PyVal.s tid) =>
            (Except.ok ⟨true, (pyStrip (pytestOutput result))⟩, s1.markPhase tid "tests_passed")
        | _ =>
            (Except.error (ShellErr.keyError "id"),
             s1.recordFailure "failed_pytest" (errStr (ShellErr.keyError "id")) "" none)
    | none => (Except.ok ⟨true, (pyStrip (pytestOutput result))⟩, s1)
  else
    (Except.ok ⟨false, (pyStrip (pytestOutput result))⟩,
     s1.recordFailure "failed_pytest" "pytest failed" (pytestOutput result)
       (some ["pytest", "-q", path]))

/-- Embeds `ShellRunner.run_pytest`: a missing tests path records `failed_pytest`
and raises; otherwise run pytest and dispatch on its exit code. -/
def runPytest (env : ShellEnv) (s : ShellState) (testPath : Option String) :
    Except ShellErr PyResult × ShellState :=
  if env.pathExists (pytestPath s testPath) then
    pytestAfter (traceStep s ["pytest", "-q", pytestPath s testPath]) (pytestPath s testPath)
      (env.run ["pytest", "-q", pytestPath s testPath])
  else
    (Except.error (ShellErr.shellCommand
       ("Tests path '" ++ pytestPath s testPath ++ "' does not exist.")),
     s.recordFailure "failed_pytest"
       ("Tests path '" ++ pytestPath s testPath ++ "' does not exist.") "" none)

/-- The `missing` list computed by `git_commit`: the absent unconditional
prerequisites, plus those optional flags that are "in the flag set but not
in the flag set" — a vacuous second filter kept verbatim from the source. -/
def commitMissing (s : ShellState) (tid : String) : List String :=
  (["patch_applied", "tests_passed"].filter (fun f => ! s.hasPhase tid f))
    ++ (["review_passed", "efficiency_passed", "branch_isolated"].filter
          (fun f => (s.flagsOf tid).contains f && ! s.hasPhase tid f))

/-- The diagnostic `git_commit` raises for missing prerequisites. -/
def commitDiag (s : ShellState) (tid : String) : String :=
  "Cannot commit – missing prerequisite phase(s): " ++ String.intercalate ", " (commitMissing s tid)

/-- Last leg of `git_commit`: `git rev-parse HEAD` ran with `check=True`, so
a non-zero exit raises `CalledProcessError` (recorded with the stderr of the
still-bound commit result before re-raising); otherwise mark `committed`
and return the stripped sha. -/
def commitSha (s3 : ShellState) (tid : String) (rCommit rSha : ProcResult) :
    Except ShellErr (Option String) × ShellState :=
  if rSha.returncode != 0 then
    (Except.error (ShellErr.calledProcess ["git", "rev-parse", "HEAD"] rSha.returncode),
     s3.recordFailure "failed_git_commit"
       (errStr (ShellErr.calledProcess ["git", "rev-parse", "HEAD"] rSha.returncode))
       rCommit.stderr none)
  else (Except.ok (some (pyStrip rSha.stdout)), s3.markPhase tid "committed")

/-- Stage after `git commit -m` returned: a non-zero exit raises `ShellCommandError`
("nothing to commit" gets its own message), recorded before re-raising. -/
def commitAfterCommit (env : ShellEnv) (s2 : ShellState) (tid : String)
    (rCommit : ProcResult) : Except ShellErr (Option String) × ShellState :=
  if rCommit.returncode != 0 then
    if pyIn "nothing to commit" (pyLower (rCommit.stderr ++ rCommit.stdout)) then
      (Except.error (ShellErr.shellCommand "git commit: nothing to commit."),
       s2.recordFailure "failed_git_commit" "git commit: nothing to commit."
         rCommit.stderr none)
    else
      (Except.error (ShellErr.shellCommand ("git commit failed: " ++ pyStrip rCommit.stderr)),
       s2.recordFailure "failed_git_commit" ("git commit failed: " ++ pyStrip rCommit.stderr)
         rCommit.stderr none)
  else
    commitSha (traceStep s2 ["git", "rev-parse", "HEAD"]) tid rCommit
      (env.run ["git", "rev-parse", "HEAD"])

/-- Stage after `git add -A` returned: a non-zero exit raises `ShellCommandError`,
recorded before re-raising. -/
def commitAfterAdd (env : ShellEnv) (s1 : ShellState) (message tid : String)
    (rAdd : ProcResult) : Except ShellErr (Option String) × ShellState :=
  if rAdd.returncode != 0 then
    (Except.error (ShellErr.shellCommand ("git add failed: " ++ pyStrip rAdd.stderr)),
     s1.recordFailure "failed_git_commit" ("git add failed: " ++ pyStrip rAdd.stderr)
       rAdd.stderr none)
  else
    commitAfterCommit env (traceStep s1 ["git", "commit", "-m", message]) tid
      (env.run ["git", "commit", "-m", message])

/-- The gated part of `git_commit` (current task attached, id in hand):
check prerequisites — recording `failed_git_commit` before raising when some
are missing — then stage, commit, rev-parse. -/
def gitCommitGated (env : ShellEnv) (s : ShellState) (message tid : String) :
    Except ShellErr (Option String) × ShellState :=
  if (commitMissing s tid).isEmpty then
    commitAfterAdd env (traceStep s ["git", "add", "-A"]) message tid
      (env.run ["git", "add", "-A"])
  else
    (Except.error (ShellErr.shellCommand (commitDiag s tid)),
     s.recordFailure "failed_git_commit" (commitDiag s tid) "" none)

/-- Runs `git_commit` with a current task: read `task["id"]` (a `KeyError` when
absent) and run the gated body. -/
def gitCommitWithTask (env : ShellEnv) (s : ShellState) (message : String)
    (task : TaskDict) : Except ShellErr (Option String) × ShellState :=
  match alookup task "id" with
  | some (PyVal.s tid) => gitCommitGated env s message tid
  | _ => (Except.error (ShellErr.keyError "id"), s)

/-- Embeds `ShellRunner.git_commit`: with no attached task the whole body sits
inside `if self._current_task:` and is skipped, returning Python `None`. -/
def gitCommit (env : ShellEnv) (s : ShellState) (message : String) :
    Except ShellErr (Option String) × ShellState :=
  match s.currentTask with
  | none => (Except.ok none, s)
  | some task => gitCommitWithTask env s message task

/-- Embeds `ShellRunner.git_reset_hard`: issues reset + clean through the internal
`_run` helper, which never inspects the return code — so this never raises
in the embedded semantics. -/
def gitResetHard (_env : ShellEnv) (s : ShellState) (ref : String) :
    Except ShellErr Unit × ShellState :=
  (Except.ok (),
   traceStep (traceStep s ["git", "reset", "--hard", ref]) ["git", "clean", "-fdx"])

/-- The Execution Engine operations named by claim C2. -/
inductive EngineOp where
  | opRun (cmd : List String)
  | opCheckout (branch baseBranch : String)
  | opApply (patch : String) (reverse : Bool)
  | opPytest (testPath : Option String)
  | opCommit (message : String)

/-- Whether the operation is `git_checkout_branch`. -/
def EngineOp.isCheckout : EngineOp → Bool
  | EngineOp.opCheckout _ _ => true
  | _ => false

/-- Uniform result payload for `execOp`. -/
inductive OpOut where
  | outStr (v : String)
  | outBool (v : Bool)
  | outPy (v : PyResult)
  | outSha (v : Option String)
  | outUnit

/-- Map an operation result onto the uniform payload, forwarding errors. -/
def liftOut {α : Type} (f : α → OpOut) :
    Except ShellErr α × ShellState → Except ShellErr OpOut × ShellState
  | (Except.ok v, s') => (Except.ok (f v), s')
  | (Except.error e, s') => (Except.error e, s')

/-- Dispatch one Execution Engine operation. -/
def execOp (env : ShellEnv) (s : ShellState) (op : EngineOp) :
    Except ShellErr OpOut × ShellState :=
  match op with
  | EngineOp.opRun cmd => liftOut OpOut.outStr (shellRun env s cmd)
  | EngineOp.opCheckout b bb => liftOut (fun _ => OpOut.outUnit) (gitCheckoutBranch env s b bb)
  | EngineOp.opApply patch reverse => liftOut OpOut.outBool (gitApply env s patch reverse)
  | EngineOp.opPytest tp => liftOut OpOut.outPy (runPytest env s tp)
  | EngineOp.opCommit m => liftOut OpOut.outSha (gitCommit env s m)

/-- Concatenation of the history lists of a sequence of records. -/
def histConcat (l : List TRec) : List Snap :=
  l.foldr (fun r acc => r.history ++ acc) []

/-- All history snapshots ever saved for `tid`, in write order (the records
for a task id are visited in store order; `save` extends the last one). -/
def taskHistory (rs : RecordState) (tid : String) : List Snap :=
  histConcat (rs.records.filter (fun r => r.taskId == tid))

theorem histConcat_append (a b : List TRec) :
    histConcat (a ++ b) = histConcat a ++ histConcat b := by
  induction a with
  | nil => simp [histConcat]
  | cons r rest ih => simp [histConcat, List.foldr_append] at ih ⊢; simp [ih]

theorem lastIdx_none_filter (rs : List TRec) (tid : String)
    (h : lastIdx rs tid = none) : rs.filter (fun r => r.taskId == tid) = [] := by
  induction rs with
  | nil => simp
  | cons r rest ih =>
      unfold lastIdx at h
      cases hL : lastIdx rest tid with
      | some i => rw [hL] at h; simp at h
      | none =>
          rw [hL] at h
          by_cases hr : r.taskId = tid
          · rw [if_pos hr] at h; simp at h
          · rw [if_neg hr] at h
            have hb : (r.taskId == tid) = false := by simp [hr]
            simp [List.filter, hb, ih hL]

/-- Extending the history of the record at the `lastIdx` position appends the
snapshot at the very end of the task's concatenated history. -/
theorem modifyAt_lastIdx_taskHistory (rs : List TRec) (tid : String) (n : Nat) (snap : Snap)
    (h : lastIdx rs tid = some n) :
    histConcat ((modifyAt rs n
        (fun r => { r with history := r.history ++ [snap] })).filter
      (fun r => r.taskId == tid)) =
    histConcat (rs.filter (fun r => r.taskId == tid)) ++ [snap] := by
  induction rs generalizing n with
  | nil => simp [lastIdx] at h
  | cons r rest ih =>
      unfold lastIdx at h
      cases hL : lastIdx rest tid with
      | some i =>
          rw [hL] at h
          simp only [Option.some.injEq] at h
          subst h
          show histConcat ((r :: modifyAt rest i _).filter _) = _
          by_cases hr : r.taskId = tid
          · simp only [List.filter, hr, beq_self_eq_true, histConcat]
            simp only [histConcat] at ih
            rw [List.foldr_cons, List.foldr_cons, ih i hL, List.append_assoc]
          · have hb : (r.taskId == tid) = false := by simp [hr]
            simp only [List.filter, hb]
            exact ih i hL
      | none =>
          rw [hL] at h
          by_cases hr : r.taskId = tid
          · rw [if_pos hr] at h
            simp only [Option.some.injEq] at h
            subst h
            show histConcat (({ r with history := r.history ++ [snap] } :: rest).filter _) = _
            simp only [List.filter, hr, beq_self_eq_true, histConcat, List.foldr_cons,
              lastIdx_none_filter rest tid hL]
            simp
          · rw [if_neg hr] at h
            exact absurd h (by simp)

/-- Lemma: `TaskRecord.save` appends exactly one snapshot at the end of the task's
history and leaves everything else as it was. -/
theorem save_taskHistory (rs : RecordState) (task : TaskDict) (state : String)
    (extra : List (String × PyVal)) (tid : String) (rs' : RecordState)
    (hid : getTaskId task = Except.ok tid)
    (h : rs.save task state extra = Except.ok rs') :
    taskHistory rs' tid = taskHistory rs tid ++ [⟨state, rs.clock, task, extra⟩] := by
  unfold RecordState.save at h
  split at h
  · exact absurd h (by simp)
  · rename_i tid' heq
    rw [hid] at heq
    injection heq with htid
    subst htid
    split at h
    · rename_i n hL
      injection h with h2
      rw [← h2]
      exact modifyAt_lastIdx_taskHistory rs.records tid n _ hL
    · rename_i hL
      injection h with h2
      rw [← h2]
      unfold taskHistory
      show histConcat ((rs.records ++ _).filter _) = _
      rw [List.filter_append, histConcat_append, lastIdx_none_filter rs.records tid hL]
      simp [histConcat]

theorem alookup_aset {α : Type} (m : List (String × α)) (k : String) (v : α) :
    alookup (aset m k v) k = some v := by
  induction m with
  | nil => simp [aset, alookup]
  | cons kv rest ih =>
      obtain ⟨k', v'⟩ := kv
      by_cases h : k' = k <;> simp [aset, alookup, h, ih]

theorem markPhase_hasPhase (s : ShellState) (tid p : String) :
    (s.markPhase tid p).hasPhase tid p = true := by
  unfold ShellState.markPhase ShellState.hasPhase ShellState.flagsOf
  simp only [alookup_aset, Option.getD_some]
  by_cases h : (s.flagsOf tid).contains p
  · simp [ShellState.flagsOf] at h ⊢
    simp [h]
  · simp [ShellState.flagsOf] at h ⊢
    simp [h]

theorem save_ok_of_getTaskId (rs : RecordState) (task : TaskDict) (state : String)
    (extra : List (String × PyVal)) (tid : String)
    (hid : getTaskId task = Except.ok tid) :
    ∃ rs', rs.save task state extra = Except.ok rs' := by
  have hstep : rs.save task state extra =
      (match lastIdx rs.records tid with
       | some i => Except.ok ⟨modifyAt rs.records i
            (fun r => { r with history := r.history ++ [⟨state, rs.clock, task, extra⟩] }),
            rs.clock + 1⟩
       | none => Except.ok ⟨rs.records ++ [⟨tid, rs.clock, [⟨state, rs.clock, task, extra⟩], []⟩],
            rs.clock + 1⟩) := by
    unfold RecordState.save
    rw [hid]
  rw [hstep]
  cases lastIdx rs.records tid with
  | some n => exact ⟨_, rfl⟩
  | none => exact ⟨_, rfl⟩

theorem recordFailure_eq (s : ShellState) (state error output : String)
    (cmd : Option (List String)) (task : TaskDict) (rec : RecordState)
    (hT : s.currentTask = some task) (hR : s.record = some rec) :
    s.recordFailure state error output cmd =
      (match rec.save task state (failExtra error output cmd) with
       | Except.ok rec' => { s with record := some rec' }
       | Except.error _ => s) := by
  unfold ShellState.recordFailure
  rw [hR, hT]

/-- Lemma: `_record_failure` with a record and a current task whose id is valid:
the state after it carries a ledger equal to the old one with exactly one
snapshot appended at the end of the task's history, and nothing else of the
runner state changes. -/
theorem recordFailure_taskHistory (s : ShellState) (state error output : String)
    (cmd : Option (List String)) (task : TaskDict) (tid : String) (rec : RecordState)
    (hT : s.currentTask = some task) (hR : s.record = some rec)
    (hid : getTaskId task = Except.ok tid) :
    ∃ rec', (s.recordFailure state error output cmd).record = some rec' ∧
      taskHistory rec' tid = taskHistory rec tid ++
        [⟨state, rec.clock, task, failExtra error output cmd⟩] ∧
      (s.recordFailure state error output cmd).currentTask = s.currentTask ∧
      (s.recordFailure state error output cmd).trace = s.trace ∧
      (s.recordFailure state error output cmd).phaseFlags = s.phaseFlags := by
  obtain ⟨rec', hrec'⟩ := save_ok_of_getTaskId rec task state (failExtra error output cmd) tid hid
  rw [recordFailure_eq s state error output cmd task rec hT hR, hrec']
  exact ⟨rec', rfl, save_taskHistory rec task state _ tid rec' hid hrec', hT.symm ▸ rfl, rfl, rfl⟩

theorem getTaskId_of_alookup (task : TaskDict) (tid : String)
    (hid : alookup task "id" = some (PyVal.s tid)) (hne : tid ≠ "") :
    getTaskId task = Except.ok tid := by
  unfold getTaskId
  rw [hid]
  exact if_neg hne

/-- The optional-flag part of `git_commit`'s prerequisite check — "set but
not set" — is vacuous, so `missing` is exactly the absent base flags. -/
theorem commitMissing_eq_base (s : ShellState) (tid : String) :
    commitMissing s tid =
      ["patch_applied", "tests_passed"].filter (fun f => ! s.hasPhase tid f) := by
  unfold commitMissing
  have hopt : (["review_passed", "efficiency_passed", "branch_isolated"].filter
      (fun f => (s.flagsOf tid).contains f && ! s.hasPhase tid f)) = [] := by
    unfold ShellState.hasPhase
    simp
  rw [hopt, List.append_nil]

theorem gitCommit_missing_eq (env : ShellEnv) (s : ShellState) (message : String)
    (task : TaskDict) (tid : String)
    (hT : s.currentTask = some task)
    (hid : alookup task "id" = some (PyVal.s tid))
    (hm : (commitMissing s tid).isEmpty = false) :
    gitCommit env s message =
      (Except.error (ShellErr.shellCommand (commitDiag s tid)),
       s.recordFailure "failed_git_commit" (commitDiag s tid) "" none) := by
  unfold gitCommit
  rw [hT]
  show gitCommitWithTask env s message task = _
  unfold gitCommitWithTask
  rw [hid]
  show gitCommitGated env s message tid = _
  unfold gitCommitGated
  rw [hm]
  simp

/-- C1: for every attached task (with a task record), invoking `git_commit`
while `patch_applied` or `tests_passed` is absent raises a
`ShellCommandError` whose diagnostic lists exactly the absent flags, a
`failed_git_commit` snapshot is appended to the task's ledger history in the
state returned with the error (record-then-raise), and no git command is
executed. -/
theorem commit_missing_flags_records_and_raises (env : ShellEnv) (s : ShellState)
    (message : String) (task : TaskDict) (tid : String) (rec : RecordState)
    (hT : s.currentTask = some task)
    (hid : alookup task "id" = some (PyVal.s tid)) (hne : tid ≠ "")
    (hR : s.record = some rec)
    (hMiss : s.hasPhase tid "patch_applied" = false ∨ s.hasPhase tid "tests_passed" = false) :
    ∃ s' rec',
      gitCommit env s message =
        (Except.error (ShellErr.shellCommand (commitDiag s tid)), s') ∧
      commitMissing s tid =
        ["patch_applied", "tests_passed"].filter (fun f => ! s.hasPhase tid f) ∧
      commitMissing s tid ≠ [] ∧
      s'.record = some rec' ∧
      taskHistory rec' tid = taskHistory rec tid ++
        [⟨"failed_git_commit", rec.clock, task, failExtra (commitDiag s tid) "" none⟩] ∧
      s'.trace = s.trace := by
  have hbase := commitMissing_eq_base s tid
  have hmem : "patch_applied" ∈ commitMissing s tid ∨ "tests_passed" ∈ commitMissing s tid := by
    rcases hMiss with h | h
    · exact Or.inl (by rw [hbase]; simp [List.mem_filter, h])
    · exact Or.inr (by rw [hbase]; simp [List.mem_filter, h])
  have hnn : commitMissing s tid ≠ [] := by
    rcases hmem with h | h
    · exact List.ne_nil_of_mem h
    · exact List.ne_nil_of_mem h
  have hie : (commitMissing s tid).isEmpty = false := by
    cases hc : (commitMissing s tid).isEmpty
    · rfl
    · exact absurd (List.isEmpty_iff.mp hc) hnn
  obtain ⟨rec', h1, h2, h3, h4, h5⟩ := recordFailure_taskHistory s "failed_git_commit"
    (commitDiag s tid) "" none task tid rec hT hR (getTaskId_of_alookup task tid hid hne)
  exact ⟨_, rec', by rw [gitCommit_missing_eq env s message task tid hT hid hie],
    hbase, hnn, h1, h2, h4⟩

def envQuiet : ShellEnv := ⟨fun _ => ⟨0, "", ""⟩, fun _ => true, "tmp.patch"⟩

def sC1 : ShellState := ⟨".", some ⟨[], 0⟩, some [("id", PyVal.s "t1")], [("t1", [])], []⟩

/-- Concrete instance of the C1 theorem: no phase flags at all, so the
diagnostic lists both base flags and the failure snapshot is persisted with
no git command run. -/
theorem commit_missing_flags_witness :
    ∃ s' rec',
      gitCommit envQuiet sC1 "msg" =
        (Except.error (ShellErr.shellCommand (commitDiag sC1 "t1")), s') ∧
      commitMissing sC1 "t1" =
        ["patch_applied", "tests_passed"].filter (fun f => ! sC1.hasPhase "t1" f) ∧
      commitMissing sC1 "t1" ≠ [] ∧
      s'.record = some rec' ∧
      taskHistory rec' "t1" = taskHistory (⟨[], 0⟩ : RecordState) "t1" ++
        [⟨"failed_git_commit", (0 : Nat), [("id", PyVal.s "t1")],
          failExtra (commitDiag sC1 "t1") "" none⟩] ∧
      s'.trace = sC1.trace :=
  commit_missing_flags_records_and_raises envQuiet sC1 "msg" [("id", PyVal.s "t1")] "t1"
    ⟨[], 0⟩ rfl rfl (by decide) rfl (Or.inl (by decide))

/-- C10: with no current task attached, `git_commit` skips its whole body:
no precondition check, no staging or commit, no ledger write, no exception —
it returns Python `None` and leaves every part of the state untouched. -/
theorem commit_no_task_returns_none (env : ShellEnv) (s : ShellState) (message : String)
    (h : s.currentTask = none) :
    gitCommit env s message = (Except.ok none, s) := by
  unfold gitCommit
  rw [h]

def sDetached : ShellState := ⟨".", some ⟨[], 0⟩, none, [], []⟩

/-- Concrete instance of the C10 theorem. -/
theorem commit_no_task_returns_none_witness :
    gitCommit envQuiet sDetached "msg" = (Except.ok none, sDetached) :=
  commit_no_task_returns_none envQuiet sDetached "msg" rfl

theorem gitApply_ok_eq (env : ShellEnv) (s : ShellState) (patch : String) (reverse : Bool)
    (v : Bool) (st : ShellState)
    (hB : gitApplyBody env s patch reverse = (Except.ok v, st)) :
    gitApply env s patch reverse = applyMark s v st := by
  unfold gitApply
  rw [hB]

theorem gitApply_err_eq (env : ShellEnv) (s : ShellState) (patch : String) (reverse : Bool)
    (e : ShellErr) (st : ShellState)
    (hB : gitApplyBody env s patch reverse = (Except.error e, st)) :
    gitApply env s patch reverse = (Except.error e, st) := by
  unfold gitApply
  rw [hB]

theorem applyMark_eq (s : ShellState) (v : Bool) (s' : ShellState) (task : TaskDict)
    (tid : String) (hT : s.currentTask = some task)
    (hid : alookup task "id" = some (PyVal.s tid)) :
    applyMark s v s' = (Except.ok v, s'.markPhase tid "patch_applied") := by
  unfold applyMark
  split
  · rename_i heq
    rw [hT] at heq
    exact absurd heq (by simp)
  · rename_i task' heq
    rw [hT] at heq
    injection heq with htask
    subst htask
    split
    · rename_i tid' heq2
      rw [hid] at heq2
      injection heq2 with hv
      injection hv with htid
      subst htid
      rfl
    · rename_i hne2
      exact absurd hid (hne2 tid)

/-- C8 (amended): a *successful* `git_apply` marks `patch_applied` for the
attached task regardless of the `reverse` flag — the decorator auto-marks on
any successful return, so the rollback path is treated exactly like a fresh
apply for commit-gating purposes. -/
theorem apply_success_marks_patch_applied (env : ShellEnv) (s : ShellState)
    (patch : String) (reverse : Bool) (task : TaskDict) (tid : String)
    (v : Bool) (s' : ShellState)
    (hT : s.currentTask = some task)
    (hid : alookup task "id" = some (PyVal.s tid))
    (hE : gitApply env s patch reverse = (Except.ok v, s')) :
    s'.hasPhase tid "patch_applied" = true := by
  cases hB : gitApplyBody env s patch reverse with
  | mk res st =>
      cases res with
      | ok v' =>
          rw [gitApply_ok_eq env s patch reverse v' st hB,
              applyMark_eq s v' st task tid hT hid] at hE
          simp only [Prod.mk.injEq] at hE
          obtain ⟨-, hs'⟩ := hE
          rw [← hs']
          exact markPhase_hasPhase st tid "patch_applied"
      | error e =>
          rw [gitApply_err_eq env s patch reverse e st hB] at hE
          simp at hE

def s8 : ShellState := ⟨".", none, some [("id", PyVal.s "t1")], [("t1", [])], []⟩

/-- C8 counterexample: a successful apply with `reverse=true` *does* mark
the `patch_applied` phase flag for the attached task, contrary to the claim
that the rollback path is not treated as a fresh apply. -/
theorem reverse_apply_marks_patch_applied :
    (gitApply envQuiet s8 "some-diff" true).fst = Except.ok true ∧
    ((gitApply envQuiet s8 "some-diff" true).snd).hasPhase "t1" "patch_applied" = true :=
  ⟨rfl, rfl⟩

/-- Concrete instance of the amended C8 theorem at a reverse apply. -/
theorem apply_success_marks_patch_applied_witness :
    ((gitApply envQuiet s8 "some-diff" true).snd).hasPhase "t1" "patch_applied" = true :=
  apply_success_marks_patch_applied envQuiet s8 "some-diff" true [("id", PyVal.s "t1")]
    "t1" true ((gitApply envQuiet s8 "some-diff" true).snd) rfl rfl rfl

theorem pytestOutput_ne_empty (r : ProcResult) : pytestOutput r ≠ "" := by
  unfold pytestOutput
  intro h
  have hlen := congrArg String.length h
  simp [String.length_append] at hlen
  exact absurd hlen.1.2 (by decide)

theorem failExtra_output_entry (error output : String) (cmd : Option (List String))
    (h : output ≠ "") :
    alookup (failExtra error output cmd) "output" = some (PyVal.s (pyStrip output)) := by
  unfold failExtra
  rw [if_neg h]
  have h1 : ("error" : String) ≠ "output" := by decide
  cases cmd <;> simp [alookup, h1]

theorem runPytest_fail_eq (env : ShellEnv) (s : ShellState) (testPath : Option String)
    (hEx : env.pathExists (pytestPath s testPath) = true)
    (hFail : (env.run ["pytest", "-q", pytestPath s testPath]).returncode ≠ 0) :
    runPytest env s testPath =
      (Except.ok ⟨false, (pyStrip (pytestOutput (env.run ["pytest", "-q", pytestPath s testPath])))⟩,
       (traceStep s ["pytest", "-q", pytestPath s testPath]).recordFailure "failed_pytest"
         "pytest failed" (pytestOutput (env.run ["pytest", "-q", pytestPath s testPath]))
         (some ["pytest", "-q", pytestPath s testPath])) := by
  have hbeq : ((env.run ["pytest", "-q", pytestPath s testPath]).returncode == 0) = false := by
    simpa using hFail
  unfold runPytest
  rw [hEx]
  simp only [if_true]
  unfold pytestAfter
  rw [hbeq]
  simp

/-- C4: when the pytest invocation itself completes with a failing exit
status, `run_pytest` does not raise: it persists a `failed_pytest` snapshot
carrying the captured (stripped) output and returns the structured result
`{'success': False, 'output': ...}`, leaving the rollback decision to the
caller. -/
theorem pytest_failure_returned_not_raised (env : ShellEnv) (s : ShellState)
    (testPath : Option String) (task : TaskDict) (tid : String) (rec : RecordState)
    (hT : s.currentTask = some task)
    (hid : alookup task "id" = some (PyVal.s tid)) (hne : tid ≠ "")
    (hR : s.record = some rec)
    (hEx : env.pathExists (pytestPath s testPath) = true)
    (hFail : (env.run ["pytest", "-q", pytestPath s testPath]).returncode ≠ 0) :
    ∃ s' rec',
      runPytest env s testPath =
        (Except.ok ⟨false, (pyStrip (pytestOutput (env.run ["pytest", "-q", pytestPath s testPath])))⟩,
         s') ∧
      s'.record = some rec' ∧
      taskHistory rec' tid = taskHistory rec tid ++
        [⟨"failed_pytest", rec.clock, task,
          failExtra "pytest failed" (pytestOutput (env.run ["pytest", "-q", pytestPath s testPath]))
            (some ["pytest", "-q", pytestPath s testPath])⟩] ∧
      alookup (failExtra "pytest failed"
          (pytestOutput (env.run ["pytest", "-q", pytestPath s testPath]))
          (some ["pytest", "-q", pytestPath s testPath])) "output" =
        some (PyVal.s (pyStrip (pytestOutput (env.run ["pytest", "-q", pytestPath s testPath])))) := by
  obtain ⟨rec', h1, h2, h3, h4, h5⟩ := recordFailure_taskHistory
    (traceStep s ["pytest", "-q", pytestPath s testPath]) "failed_pytest" "pytest failed"
    (pytestOutput (env.run ["pytest", "-q", pytestPath s testPath]))
    (some ["pytest", "-q", pytestPath s testPath]) task tid rec hT hR
    (getTaskId_of_alookup task tid hid hne)
  refine ⟨_, rec', ?_, h1, h2,
    failExtra_output_entry _ _ _ (pytestOutput_ne_empty _)⟩
  rw [runPytest_fail_eq env s testPath hEx hFail]

def envPyFail : ShellEnv :=
  ⟨fun cmd => if cmd = ["pytest", "-q", "./tests"] then ⟨1, "F..", "1 failed"⟩ else ⟨0, "", ""⟩,
   fun _ => true, "tmp.patch"⟩

/-- Concrete instance of the C4 theorem: a red test suite yields a
structured failure result plus a `failed_pytest` snapshot with the output. -/
theorem pytest_failure_returned_not_raised_witness :
    ∃ s' rec',
      runPytest envPyFail sC1 none =
        (Except.ok ⟨false, pyStrip (pytestOutput (envPyFail.run ["pytest", "-q",
           pytestPath sC1 none]))⟩, s') ∧
      s'.record = some rec' ∧
      taskHistory rec' "t1" = taskHistory (⟨[], 0⟩ : RecordState) "t1" ++
        [⟨"failed_pytest", (0 : Nat), [("id", PyVal.s "t1")],
          failExtra "pytest failed"
            (pytestOutput (envPyFail.run ["pytest", "-q", pytestPath sC1 none]))
            (some ["pytest", "-q", pytestPath sC1 none])⟩] ∧
      alookup (failExtra "pytest failed"
          (pytestOutput (envPyFail.run ["pytest", "-q", pytestPath sC1 none]))
          (some ["pytest", "-q", pytestPath sC1 none])) "output" =
        some (PyVal.s (pyStrip (pytestOutput (envPyFail.run ["pytest", "-q",
          pytestPath sC1 none])))) :=
  pytest_failure_returned_not_raised envPyFail sC1 none [("id", PyVal.s "t1")] "t1"
    ⟨[], 0⟩ rfl rfl (by decide) rfl rfl (by decide)

theorem shellRun_err (env : ShellEnv) (s : ShellState) (cmd : List String)
    (e : ShellErr) (st : ShellState)
    (h : shellRun env s cmd = (Except.error e, st)) :
    st = (traceStep s cmd).recordFailure "failed_run"
        (pyStrip ((env.run cmd).stdout ++ (env.run cmd).stderr))
        ((env.run cmd).stdout ++ (env.run cmd).stderr) (some cmd) := by
  unfold shellRun shellRunAfter at h
  split at h
  · simp only [Prod.mk.injEq] at h
    exact h.2.symm
  · simp at h

/-- Every error raised by the (undecorated) `git_apply` body leaves a state
produced by `_record_failure` with stage `failed_git_apply[_reverse]`, on an
intermediate state with the same current task and record. -/
theorem gitApplyBody_err (env : ShellEnv) (s : ShellState) (patch : String)
    (reverse : Bool) (e : ShellErr) (st : ShellState)
    (h : gitApplyBody env s patch reverse = (Except.error e, st)) :
    ∃ error output cmd s0,
      st = ShellState.recordFailure s0 ("failed_" ++ applyStage reverse) error output cmd ∧
      s0.currentTask = s.currentTask ∧ s0.record = s.record := by
  unfold gitApplyBody at h
  split at h
  · simp only [Prod.mk.injEq] at h
    exact ⟨_, _, _, s, h.2.symm, rfl, rfl⟩
  · unfold gitApplyChecked at h
    split at h
    · simp only [Prod.mk.injEq] at h
      exact ⟨_, _, _, traceStep s (applyCheckCmd env reverse), h.2.symm, rfl, rfl⟩
    · unfold gitApplyReal at h
      split at h
      · simp only [Prod.mk.injEq] at h
        exact ⟨_, _, _,
          traceStep (traceStep s (applyCheckCmd env reverse)) (applyCmd env reverse),
          h.2.symm, rfl, rfl⟩
      · simp at h

/-- Every error raised by `run_pytest` (given a current task with a string
id) is the missing-tests-path error, recorded as `failed_pytest` before the
raise. -/
theorem runPytest_err (env : ShellEnv) (s : ShellState) (tp : Option String)
    (e : ShellErr) (st : ShellState) (task : TaskDict) (tid : String)
    (hT : s.currentTask = some task)
    (hid : alookup task "id" = some (PyVal.s tid))
    (h : runPytest env s tp = (Except.error e, st)) :
    st = s.recordFailure "failed_pytest"
        ("Tests path '" ++ pytestPath s tp ++ "' does not exist.") "" none := by
  unfold runPytest at h
  split at h
  · unfold pytestAfter at h
    split at h
    · have hT1 : (traceStep s ["pytest", "-q", pytestPath s tp]).currentTask = some task := hT
      rw [hT1] at h
      have h2 : (match alookup task "id" with
          | some (PyVal.s tid) =>
              ((Except.ok ⟨true, pyStrip (pytestOutput (env.run ["pytest", "-q",
                  pytestPath s tp]))⟩ : Except ShellErr PyResult),
               (traceStep s ["pytest", "-q", pytestPath s tp]).markPhase tid "tests_passed")
          | _ =>
              (Except.error (ShellErr.keyError "id"),
               (traceStep s ["pytest", "-q", pytestPath s tp]).recordFailure "failed_pytest"
                 (errStr (ShellErr.keyError "id")) "" none)) = (Except.error e, st) := h
      rw [hid] at h2
      simp at h2
    · simp at h
  · simp only [Prod.mk.injEq] at h
    exact h.2.symm

/-- Every error raised by the gated part of `git_commit` leaves a state
produced by `_record_failure` with stage `failed_git_commit`, on an
intermediate state with the same current task and record. -/
theorem gitCommitGated_err (env : ShellEnv) (s : ShellState) (message tid : String)
    (e : ShellErr) (st : ShellState)
    (h : gitCommitGated env s message tid = (Except.error e, st)) :
    ∃ error output s0,
      st = ShellState.recordFailure s0 "failed_git_commit" error output none ∧
      s0.currentTask = s.currentTask ∧ s0.record = s.record := by
  unfold gitCommitGated at h
  split at h
  · unfold commitAfterAdd at h
    split at h
    · simp only [Prod.mk.injEq] at h
      exact ⟨_, _, traceStep s ["git", "add", "-A"], h.2.symm, rfl, rfl⟩
    · unfold commitAfterCommit at h
      split at h
      · split at h
        · simp only [Prod.mk.injEq] at h
          exact ⟨_, _, traceStep (traceStep s ["git", "add", "-A"])
            ["git", "commit", "-m", message], h.2.symm, rfl, rfl⟩
        · simp only [Prod.mk.injEq] at h
          exact ⟨_, _, traceStep (traceStep s ["git", "add", "-A"])
            ["git", "commit", "-m", message], h.2.symm, rfl, rfl⟩
      · unfold commitSha at h
        split at h
        · simp only [Prod.mk.injEq] at h
          exact ⟨_, _, traceStep (traceStep (traceStep s ["git", "add", "-A"])
            ["git", "commit", "-m", message]) ["git", "rev-parse", "HEAD"],
            h.2.symm, rfl, rfl⟩
        · simp at h
  · simp only [Prod.mk.injEq] at h
    exact ⟨_, _, s, h.2.symm, rfl, rfl⟩

/-- C2 (amended): with a task record and a current task (with a valid id)
attached, every error raised by `run`, `git_apply`, `run_pytest` or
`git_commit` is preceded by exactly one `failed_<stage>` snapshot appended
to that task's ledger history, present in the state returned together with
the error.  `git_checkout_branch` is the exception: it raises without
recording (see the counterexample theorem). -/
theorem engine_record_then_raise (env : ShellEnv) (s : ShellState) (op : EngineOp)
    (task : TaskDict) (tid : String) (rec : RecordState) (e : ShellErr) (s' : ShellState)
    (hT : s.currentTask = some task)
    (hid : alookup task "id" = some (PyVal.s tid)) (hne : tid ≠ "")
    (hR : s.record = some rec)
    (hNC : op.isCheckout = false)
    (hE : execOp env s op = (Except.error e, s')) :
    ∃ rec' rest extra,
      s'.record = some rec' ∧
      taskHistory rec' tid = taskHistory rec tid ++
        [⟨"failed_" ++ rest, rec.clock, task, extra⟩] := by
  have hgid := getTaskId_of_alookup task tid hid hne
  cases op with
  | opCheckout b bb => simp [EngineOp.isCheckout] at hNC
  | opRun cmd =>
      have hE1 : liftOut OpOut.outStr (shellRun env s cmd) = (Except.error e, s') := hE
      cases hr : shellRun env s cmd with
      | mk r st =>
          cases r with
          | ok v =>
              rw [hr] at hE1
              have hE2 : ((Except.ok (OpOut.outStr v) : Except ShellErr OpOut), st) =
                  (Except.error e, s') := hE1
              simp at hE2
          | error eb =>
              rw [hr] at hE1
              have hE2 : ((Except.error eb : Except ShellErr OpOut), st) =
                  (Except.error e, s') := hE1
              simp only [Prod.mk.injEq] at hE2
              obtain ⟨-, hst⟩ := hE2
              have hstval := shellRun_err env s cmd eb st hr
              obtain ⟨rec', h1, h2, -, -, -⟩ := recordFailure_taskHistory
                (traceStep s cmd) "failed_run"
                (pyStrip ((env.run cmd).stdout ++ (env.run cmd).stderr))
                ((env.run cmd).stdout ++ (env.run cmd).stderr) (some cmd)
                task tid rec hT hR hgid
              rw [← hst, hstval]
              exact ⟨rec', "run", _, h1, h2⟩
  | opApply patch reverse =>
      have hE1 : liftOut OpOut.outBool (gitApply env s patch reverse) = (Except.error e, s') := hE
      cases hB : gitApplyBody env s patch reverse with
      | mk res st =>
          cases res with
          | ok v =>
              have hG := gitApply_ok_eq env s patch reverse v st hB
              rw [applyMark_eq s v st task tid hT hid] at hG
              rw [hG] at hE1
              have hE2 : ((Except.ok (OpOut.outBool v) : Except ShellErr OpOut),
                  st.markPhase tid "patch_applied") = (Except.error e, s') := hE1
              simp at hE2
          | error eb =>
              have hG := gitApply_err_eq env s patch reverse eb st hB
              rw [hG] at hE1
              have hE2 : ((Except.error eb : Except ShellErr OpOut), st) =
                  (Except.error e, s') := hE1
              simp only [Prod.mk.injEq] at hE2
              obtain ⟨-, hst⟩ := hE2
              obtain ⟨err, outp, cmd?, s0, hstval, hT0, hR0⟩ :=
                gitApplyBody_err env s patch reverse eb st hB
              obtain ⟨rec', h1, h2, -, -, -⟩ := recordFailure_taskHistory s0
                ("failed_" ++ applyStage reverse) err outp cmd? task tid rec
                (hT0.trans hT) (hR0.trans hR) hgid
              rw [← hst, hstval]
              exact ⟨rec', applyStage reverse, _, h1, h2⟩
  | opPytest tp =>
      have hE1 : liftOut OpOut.outPy (runPytest env s tp) = (Except.error e, s') := hE
      cases hr : runPytest env s tp with
      | mk r st =>
          cases r with
          | ok v =>
              rw [hr] at hE1
              have hE2 : ((Except.ok (OpOut.outPy v) : Except ShellErr OpOut), st) =
                  (Except.error e, s') := hE1
              simp at hE2
          | error eb =>
              rw [hr] at hE1
              have hE2 : ((Except.error eb : Except ShellErr OpOut), st) =
                  (Except.error e, s') := hE1
              simp only [Prod.mk.injEq] at hE2
              obtain ⟨-, hst⟩ := hE2
              have hstval := runPytest_err env s tp eb st task tid hT hid hr
              obtain ⟨rec', h1, h2, -, -, -⟩ := recordFailure_taskHistory s
                "failed_pytest" ("Tests path '" ++ pytestPath s tp ++ "' does not exist.")
                "" none task tid rec hT hR hgid
              rw [← hst, hstval]
              exact ⟨rec', "pytest", _, h1, h2⟩
  | opCommit m =>
      have hE1 : liftOut OpOut.outSha (gitCommit env s m) = (Except.error e, s') := hE
      cases hr : gitCommit env s m with
      | mk r st =>
          cases r with
          | ok v =>
              rw [hr] at hE1
              have hE2 : ((Except.ok (OpOut.outSha v) : Except ShellErr OpOut), st) =
                  (Except.error e, s') := hE1
              simp at hE2
          | error eb =>
              rw [hr] at hE1
              have hE2 : ((Except.error eb : Except ShellErr OpOut), st) =
                  (Except.error e, s') := hE1
              simp only [Prod.mk.injEq] at hE2
              obtain ⟨-, hst⟩ := hE2
              have hg : gitCommitGated env s m tid = (Except.error eb, st) := by
                unfold gitCommit at hr
                rw [hT] at hr
                have hr2 : gitCommitWithTask env s m task = (Except.error eb, st) := hr
                unfold gitCommitWithTask at hr2
                rw [hid] at hr2
                exact hr2
              obtain ⟨err, outp, s0, hstval, hT0, hR0⟩ :=
                gitCommitGated_err env s m tid eb st hg
              obtain ⟨rec', h1, h2, -, -, -⟩ := recordFailure_taskHistory s0
                "failed_git_commit" err outp none task tid rec
                (hT0.trans hT) (hR0.trans hR) hgid
              rw [← hst, hstval]
              exact ⟨rec', "git_commit", _, h1, h2⟩

def envCk : ShellEnv :=
  ⟨fun cmd => if cmd = ["git", "branch", "--list", "b"] then ⟨1, "", "boom"⟩ else ⟨0, "", ""⟩,
   fun _ => true, "tmp.patch"⟩

/-- C2 counterexample: with a record and a task attached, a failing
`git branch --list` makes `git_checkout_branch` raise while the ledger is
left untouched — no `failed_<stage>` snapshot is written before the caller
observes the error. -/
theorem checkout_raises_without_snapshot :
    (execOp envCk sC1 (EngineOp.opCheckout "b" "main")).fst =
      Except.error (ShellErr.shellCommand "boom") ∧
    (execOp envCk sC1 (EngineOp.opCheckout "b" "main")).snd.record = sC1.record :=
  ⟨rfl, rfl⟩

def envRunFail : ShellEnv :=
  ⟨fun _ => ⟨1, "", "fail"⟩, fun _ => true, "tmp.patch"⟩

/-- Concrete instance of the amended C2 theorem at a failing `run`. -/
theorem engine_record_then_raise_witness :
    ∃ rec' rest extra,
      ((execOp envRunFail sC1 (EngineOp.opRun ["false"])).snd).record = some rec' ∧
      taskHistory rec' "t1" = taskHistory (⟨[], 0⟩ : RecordState) "t1" ++
        [⟨"failed_" ++ rest, (0 : Nat), [("id", PyVal.s "t1")], extra⟩] :=
  engine_record_then_raise envRunFail sC1 (EngineOp.opRun ["false"])
    [("id", PyVal.s "t1")] "t1" ⟨[], 0⟩
    (ShellErr.shellCommand "fail")
    ((execOp envRunFail sC1 (EngineOp.opRun ["false"])).snd)
    rfl rfl (by decide) rfl rfl rfl

/-! ## Patch Builder — `src/cadence/dev/patch_builder.py`, `change_set.py` -/

/-- A directory tree: repository-relative path → file contents. -/
abbrev FsTree := List (String × String)

/-- Embeds `change_set.FileEdit`. -/
structure FileEdit where
  path : String
  after : Option String
  beforeSha : Option String
  mode : String

/-- Embeds `change_set.ChangeSet` (`meta` is never read by the builder). -/
structure ChangeSet where
  edits : List FileEdit
  message : String
  author : String

/-- The external effects `build_patch` drives: SHA-1 hashing of file bytes,
`git diff --no-index` between the repo and the shadow copy, the pure header
rewriting of `_rewrite_headers` (the verified property holds for *every*
rewriting function, so it is universally quantified here), and
`git apply --check`. -/
structure PBEnv where
  sha1 : String → String
  gitDiff : FsTree → FsTree → ProcResult
  rewrite : String → String
  applyCheck : String → FsTree → ProcResult

/-- Embeds `ChangeSet.validate_against_repo`: for every edit with a truthy
`before_sha`, the file must exist in the repo and its SHA-1 must match;
raises before any shadow mutation. -/
def validateAgainstRepo (env : PBEnv) (edits : List FileEdit) (repo : FsTree) :
    Except String Unit :=
  match edits with
  | [] => Except.ok ()
  | e :: rest =>
      if pyTruthy e.beforeSha then
        match alookup repo e.path with
        | none => Except.error (e.path ++ " missing – SHA check impossible.")
        | some content =>
            if env.sha1 content ≠ e.beforeSha.getD "" then
              Except.error (e.path ++ " SHA mismatch (expected " ++ e.beforeSha.getD ""
                ++ ", got " ++ env.sha1 content ++ ")")
            else validateAgainstRepo env rest repo
      else validateAgainstRepo env rest repo

/-- Embeds `_apply_edit_to_shadow`: delete unlinks (missing_ok); add/modify require
`after` and write it (parent dirs are implicit in the tree model). -/
def applyEditToShadow (edit : FileEdit) (shadow : FsTree) : Except String FsTree :=
  if edit.mode = "delete" then
    Except.ok (shadow.filter (fun kv => kv.1 != edit.path))
  else
    match edit.after with
    | none => Except.error ("`after` content required for mode=" ++ edit.mode)
    | some c => Except.ok (aset shadow edit.path c)

/-- Apply all edits to the shadow copy in order. -/
def applyEdits (edits : List FileEdit) (shadow : FsTree) : Except String FsTree :=
  match edits with
  | [] => Except.ok shadow
  | e :: rest =>
      match applyEditToShadow e shadow with
      | Except.error msg => Except.error msg
      | Except.ok shadow' => applyEdits rest shadow'

/-- Embeds `_ensure_patch_applies` inlined at the end of `build_patch`: dry-run
`git apply --check` against the original tree; raise unless it applies. -/
def buildEnsure (env : PBEnv) (repo : FsTree) (patch : String) : Except String String :=
  if (env.applyCheck patch repo).returncode != 0 then
    Except.error ("Generated patch does not apply: "
      ++ pyStrip (env.applyCheck patch repo).stderr)
  else Except.ok patch

/-- After header rewriting: reject an empty diff, ensure the trailing
newline, then dry-run-validate. -/
def buildCheck (env : PBEnv) (repo : FsTree) (patch : String) : Except String String :=
  if pyStrip patch = "" then Except.error "ChangeSet produced an empty diff."
  else buildEnsure env repo (if pyEndsWith patch "\n" then patch else patch ++ "\n")

/-- After `git diff --no-index` returned: exit codes other than 0/1 raise;
otherwise rewrite the headers and continue. -/
def buildFromDiff (env : PBEnv) (repo : FsTree) (proc : ProcResult) : Except String String :=
  if proc.returncode != 0 && proc.returncode != 1 then
    Except.error (pyStrip proc.stderr)
  else buildCheck env repo (env.rewrite proc.stdout)

/-- Embeds `patch_builder.build_patch`: validate the ChangeSet against the repo,
copy the repo to a shadow tree, apply the edits there, diff, rewrite,
reject-empty, and dry-run-verify; the real tree is never mutated. -/
def buildPatch (env : PBEnv) (cs : ChangeSet) (repo : FsTree) : Except String String :=
  match validateAgainstRepo env cs.edits repo with
  | Except.error msg => Except.error msg
  | Except.ok _ =>
      match applyEdits cs.edits repo with
      | Except.error msg => Except.error msg
      | Except.ok shadow => buildFromDiff env repo (env.gitDiff repo shadow)

theorem buildEnsure_ok (env : PBEnv) (repo : FsTree) (patch p : String)
    (h : buildEnsure env repo patch = Except.ok p) :
    p = patch ∧ (env.applyCheck p repo).returncode = 0 := by
  unfold buildEnsure at h
  split at h
  · simp at h
  · rename_i hc
    simp only [Except.ok.injEq] at h
    subst h
    exact ⟨rfl, by simpa using hc⟩

/-- C3: for every ChangeSet with at least one edit and every repository
tree, `build_patch` either raises or returns a diff string that passed the
dry-run `git apply --check` against the original (unmodified) tree — it
never returns an unverified diff. -/
theorem build_patch_verified (env : PBEnv) (cs : ChangeSet) (repo : FsTree) (p : String)
    (_hne : cs.edits ≠ [])
    (hok : buildPatch env cs repo = Except.ok p) :
    (env.applyCheck p repo).returncode = 0 := by
  unfold buildPatch at hok
  split at hok
  · simp at hok
  · split at hok
    · simp at hok
    · unfold buildFromDiff at hok
      split at hok
      · simp at hok
      · unfold buildCheck at hok
        split at hok
        · simp at hok
        · exact (buildEnsure_ok env repo _ p hok).2

def pbEnvW : PBEnv :=
  ⟨fun _ => "sha", fun _ _ => ⟨1, "diff --git a/f b/f", ""⟩, fun d => d,
   fun _ _ => ⟨0, "", ""⟩⟩

def csW : ChangeSet := ⟨[⟨"f", some "new", none, "modify"⟩], "msg", "author"⟩

def repoW : FsTree := [("f", "old")]

/-- Concrete instance of the C3 theorem: one-edit ChangeSet, successful
build; the returned diff passed the dry run. -/
theorem build_patch_verified_witness :
    (pbEnvW.applyCheck "diff --git a/f b/f\n" repoW).returncode = 0 :=
  build_patch_verified pbEnvW csW repoW "diff --git a/f b/f\n" (by simp [csW]) rfl

/-! ## Task Executor and the orchestrator's build-patch stage —
`src/cadence/dev/executor.py`, `src/cadence/dev/orchestrator.py` -/

/-- The exception raised inside `TaskExecutor.build_patch`'s try-block:
`PatchBuildError` gets its own except-clause; everything else (including a
`TaskExecutorError` raised by `_build_one_file_diff`) falls to the generic
`except Exception`. -/
inductive ExecErr where
  | patchBuild (msg : String)
  | otherErr (msg : String)

/-- External pieces of the executor: `build_patch(ChangeSet.from_dict(...),
".")` for the structured path (modelled as an opaque call keyed by the raw
`change_set` value) and `difflib.unified_diff` joined to one string. -/
structure ExecEnv where
  buildChangeSet : PyVal → Except ExecErr String
  unifiedDiff : List String → List String → String → String → String

/-- Split a string into lines keeping the trailing newline of each
(`str.splitlines(keepends=True)`, ASCII newlines). -/
def splitKeepNl : List Char → List Char → List String
  | acc, [] => if acc.isEmpty then [] else [String.mk acc.reverse]
  | acc, c :: rest =>
      if c = '\n' then String.mk (acc.reverse ++ ['\n']) :: splitKeepNl [] rest
      else splitKeepNl (c :: acc) rest

/-- The body of `_build_one_file_diff` once a non-empty diff dict is in
hand. -/
def buildOneFileDiffInfo (env : ExecEnv) (diffInfo : List (String × PyVal)) :
    Except ExecErr String :=
  let fileRel := match alookup diffInfo "file" with | some (PyVal.s v) => v | _ => ""
  let before? := match alookup diffInfo "before" with | some (PyVal.s v) => some v | _ => none
  let after? := match alookup diffInfo "after" with | some (PyVal.s v) => some v | _ => none
  match before?, after? with
  | some before, some after =>
      if fileRel = "" then
        Except.error (ExecErr.otherErr "diff dict must contain 'file', 'before', and 'after'.")
      else
        let beforeN := if before ≠ "" && !pyEndsWith before "\n" then before ++ "\n" else before
        let afterN := if after ≠ "" && !pyEndsWith after "\n" then after ++ "\n" else after
        let beforeLines := if beforeN = "" then [] else splitKeepNl [] beforeN.toList
        let afterLines := if afterN = "" then [] else splitKeepNl [] afterN.toList
        let newFile := beforeLines.isEmpty && !afterLines.isEmpty
        let deleteFile := !beforeLines.isEmpty && afterLines.isEmpty
        let fromfile := if newFile then "/dev/null" else "a/" ++ fileRel
        let tofile := if deleteFile then "/dev/null" else "b/" ++ fileRel
        let patch := env.unifiedDiff beforeLines afterLines fromfile tofile
        if pyStrip patch = "" then
          Except.error (ExecErr.patchBuild "empty diff – change already present")
        else Except.ok (if pyEndsWith patch "\n" then patch else patch ++ "\n")
  | _, _ =>
      Except.error (ExecErr.otherErr "diff dict must contain 'file', 'before', and 'after'.")

/-- Embeds `TaskExecutor._build_one_file_diff`: the legacy before/after dict path.
A missing or falsy `diff` value raises `TaskExecutorError` about the
missing patch material; missing `file`/`before`/`after` raise; line endings
are normalised; an empty generated diff raises `PatchBuildError`. -/
def buildOneFileDiff (env : ExecEnv) (task : TaskDict) : Except ExecErr String :=
  match alookup task "diff" with
  | some (PyVal.d diffInfo) =>
      if diffInfo.isEmpty then
        Except.error (ExecErr.otherErr
          "Task missing 'change_set', 'diff', or already-built 'patch'.")
      else
        buildOneFileDiffInfo env diffInfo
  | some (PyVal.s _) =>
      Except.error (ExecErr.otherErr "diff dict must contain 'file', 'before', and 'after'.")
  | _ =>
      Except.error (ExecErr.otherErr
        "Task missing 'change_set', 'diff', or already-built 'patch'.")

/-- Patch-source dispatch of `TaskExecutor.build_patch`: an already-built
string `patch` wins, then a `change_set`, then the legacy `diff` dict. -/
def ebpSelect (env : ExecEnv) (task : TaskDict) : Except ExecErr String :=
  match alookup task "patch" with
  | some (PyVal.s raw) => Except.ok raw
  | _ =>
      if (alookup task "change_set").isSome then
        env.buildChangeSet ((alookup task "change_set").getD PyVal.none_)
      else buildOneFileDiff env task

/-- The common tail validation of `build_patch`: an empty (all-whitespace)
patch raises `PatchBuildError("empty diff – change already present")`;
otherwise a trailing newline is guaranteed. -/
def ebpFinish (patch : String) : Except ExecErr String :=
  if pyStrip patch = "" then
    Except.error (ExecErr.patchBuild "empty diff – change already present")
  else Except.ok (if pyEndsWith patch "\n" then patch else patch ++ "\n")

/-- The try-block of `TaskExecutor.build_patch`. -/
def ebpTry (env : ExecEnv) (task : TaskDict) : Except ExecErr String :=
  match ebpSelect env task with
  | Except.ok patch => ebpFinish patch
  | Except.error e => Except.error e

/-- The except-clauses: `PatchBuildError` → `TaskExecutorError(str(exc))`;
any other exception → `TaskExecutorError("Failed to build patch: ...")`. -/
def ebpWrap : Except ExecErr String → Except String String
  | Except.ok p => Except.ok p
  | Except.error (ExecErr.patchBuild m) => Except.error m
  | Except.error (ExecErr.otherErr m) => Except.error ("Failed to build patch: " ++ m)

/-- Embeds `TaskExecutor.build_patch`: the value is the diff string; the error is
the `TaskExecutorError` message the orchestrator sees. -/
def executorBuildPatch (env : ExecEnv) (task : TaskDict) : Except String String :=
  ebpWrap (ebpTry env task)

/-- What the orchestrator's `except TaskExecutorError` handler in
`run_task_cycle` records and returns for a build-patch failure: the audit
state written via `_record`, the `stage` of the returned failure dict,
whether the task is blocked, and the error text. -/
structure StageOutcome where
  recorded : String
  stage : String
  blocked : Bool
  error : String

/-- Models `run_task_cycle` step 2's `except TaskExecutorError as ex` handler:
an "empty diff" message is recorded as `failed_build_patch` with stage
`build_patch` — the same as the generic fallback; only the malformed
change-set case (`"after" and "mode=modify"`) differs. -/
def handleExecutorError (msg : String) : StageOutcome :=
  if pyIn "empty diff" (pyLower msg) then
    ⟨"failed_build_patch", "build_patch", false, msg⟩
  else if pyIn "after" (pyLower msg) && pyIn "mode=modify" (pyLower msg) then
    ⟨"invalid_change_set", "change_set_validation", true, msg⟩
  else ⟨"failed_build_patch", "build_patch", false, msg⟩

/-- C5 (amended): a task whose patch build yields an empty diff raises the
distinct error message "empty diff – change already present", but the
orchestrator records the same `failed_build_patch` audit state and returns
the same `build_patch` stage as a generic patch-build failure — only the
error text distinguishes the no-op case. -/
theorem empty_diff_same_state_and_stage (env : ExecEnv) (task : TaskDict) (raw : String)
    (hp : alookup task "patch" = some (PyVal.s raw))
    (hs : pyStrip raw = "") :
    executorBuildPatch env task = Except.error "empty diff – change already present" ∧
    (handleExecutorError "empty diff – change already present").recorded =
      "failed_build_patch" ∧
    (handleExecutorError "empty diff – change already present").stage = "build_patch" := by
  have hsel : ebpSelect env task = Except.ok raw := by
    unfold ebpSelect
    rw [hp]
  have hfin : ebpFinish raw =
      Except.error (ExecErr.patchBuild "empty diff – change already present") := by
    unfold ebpFinish
    rw [hs]
    simp
  have htry : ebpTry env task =
      Except.error (ExecErr.patchBuild "empty diff – change already present") := by
    unfold ebpTry
    rw [hsel]
    exact hfin
  refine ⟨?_, by decide, by decide⟩
  unfold executorBuildPatch
  rw [htry]
  rfl

def envExecW : ExecEnv :=
  ⟨fun _ => Except.error (ExecErr.patchBuild "not reached"), fun _ _ _ _ => ""⟩

def taskEmptyDiff : TaskDict := [("id", PyVal.s "t1"), ("patch", PyVal.s "")]

def taskNoMaterial : TaskDict := [("id", PyVal.s "t2")]

/-- C5 counterexample: the empty-diff no-op and a generic build failure are
recorded with the same audit state and returned with the same stage; the
recorded state and stage do not distinguish them (only the error strings
differ). -/
theorem empty_diff_not_distinct :
    executorBuildPatch envExecW taskEmptyDiff =
      Except.error "empty diff – change already present" ∧
    executorBuildPatch envExecW taskNoMaterial =
      Except.error
        "Failed to build patch: Task missing 'change_set', 'diff', or already-built 'patch'." ∧
    (handleExecutorError "empty diff – change already present").recorded =
      (handleExecutorError
        "Failed to build patch: Task missing 'change_set', 'diff', or already-built 'patch'.").recorded ∧
    (handleExecutorError "empty diff – change already present").stage =
      (handleExecutorError
        "Failed to build patch: Task missing 'change_set', 'diff', or already-built 'patch'.").stage :=
  ⟨rfl, rfl, by decide, by decide⟩

/-- Concrete instance of the amended C5 theorem at the empty-patch task. -/
theorem empty_diff_same_state_and_stage_witness :
    executorBuildPatch envExecW taskEmptyDiff =
      Except.error "empty diff – change already present" ∧
    (handleExecutorError "empty diff – change already present").recorded =
      "failed_build_patch" ∧
    (handleExecutorError "empty diff – change already present").stage = "build_patch" :=
  empty_diff_same_state_and_stage envExecW taskEmptyDiff "" rfl rfl
